import Mathlib

/-!
Verification of the menfess-bot quota limiter, one-time welcome marker and the
handler glue that calls them (bot.py), together with the retrying call
executor described by the design document (absent from the sources, modelled
from the spec).

The SQLite `limits` table has no primary key, so it is embedded as a list of
rows in insertion order.  `SELECT ... fetchone` is `List.find?` on the WHERE
predicate, `UPDATE ... WHERE` maps over every matching row, and `INSERT`
appends.  The current day, produced in Python by `date.today()`, is passed
explicitly as a string parameter.
-/

/-- A row of the `limits` table (bot.py 37-44): user_id, type, count, date. -/
structure LimitRow where
  user_id : Int
  type : String
  count : Int
  date : String
deriving DecidableEq

abbrev LimitsTable := List LimitRow

/-- The WHERE clause `user_id=? AND type=? AND date=?` used by check_limit. -/
def rowMatches (s : Int) (t d : String) (r : LimitRow) : Bool :=
  r.user_id == s && r.type == t && r.date == d

/-- `SELECT count FROM limits WHERE ...` followed by `fetchone()` (bot.py
71-75): the count of the first matching row, if any. -/
def selectCount (tbl : LimitsTable) (s : Int) (t d : String) : Option Int :=
  (tbl.find? (rowMatches s t d)).map (fun r => r.count)

/-- `UPDATE limits SET count=count+1 WHERE ...` (bot.py 81-84): every
matching row has its count bumped by one. -/
def updateIncrement (tbl : LimitsTable) (s : Int) (t d : String) : LimitsTable :=
  tbl.map (fun r => if rowMatches s t d r then { r with count := r.count + 1 } else r)

/-- `INSERT INTO limits VALUES (?, ?, 1, ?)` (bot.py 86-89): appends a fresh
row with count 1. -/
def insertRow (tbl : LimitsTable) (s : Int) (t d : String) : LimitsTable :=
  tbl ++ [{ user_id := s, type := t, count := 1, date := d }]

/-- `check_limit(user_id, limit_type, max_limit)` (bot.py 69-92), with the
current day passed explicitly.  Returns the boolean decision (True = allowed)
and the `limits` table after the call. -/
def check_limit (tbl : LimitsTable) (user_id : Int) (limit_type : String)
    (max_limit : Int) (today : String) : Bool × LimitsTable :=
  match selectCount tbl user_id limit_type today with
  | some c =>
    if c ≥ max_limit then (false, tbl)
    else (true, updateIncrement tbl user_id limit_type today)
  | none => (true, insertRow tbl user_id limit_type today)

/-- A row of the `chat_stats` table (bot.py 52-58). -/
structure ChatStatRow where
  user_id : Int
  count : Int
  date : String
deriving DecidableEq

/-- The whole database: the three tables created at bot.py 37-58.  The
`welcome` table has a single integer primary-key column, embedded as the list
of its user_id values. -/
structure DB where
  limits : LimitsTable
  welcome : List Int
  chat_stats : List ChatStatRow
deriving DecidableEq

/-- check_limit viewed against the whole database: the function only issues
SQL against `limits`, so the other tables pass through untouched. -/
def check_limit_db (db : DB) (user_id : Int) (limit_type : String)
    (max_limit : Int) (today : String) : Bool × DB :=
  let r := check_limit db.limits user_id limit_type max_limit today
  (r.1, { db with limits := r.2 })

/-- The per-member body of welcome_handler (bot.py 272-279): SELECT on the
`welcome` table, and if no row is found, INSERT the member and fire the
welcome reply.  The first component is true exactly when the member was not
yet marked, i.e. exactly when the row is inserted and the reply side effect
fires. -/
def markOnceIfAbsent (w : List Int) (uid : Int) : Bool × List Int :=
  match w.find? (fun x => x == uid) with
  | some _ => (false, w)
  | none => (true, w ++ [uid])

/-- A sequence of n same-day check_limit calls for one (subject, type, day)
triple, returning the list of decisions in order and the final table. -/
def runCalls (s : Int) (t : String) (L : Int) (d : String) :
    LimitsTable → Nat → List Bool × LimitsTable
  | tbl, 0 => ([], tbl)
  | tbl, n + 1 =>
    let r := check_limit tbl s t L d
    let rest := runCalls s t L d r.2 n
    (r.1 :: rest.1, rest.2)

/-- Progress of one concurrent caller through check_limit, split at the
statement boundary the code exposes: the SELECT/fetchone at bot.py 71-75
(read) and the conditional UPDATE/INSERT at bot.py 77-91 (write). -/
inductive Phase where
  | toRead : Phase
  | toWrite : Option Int → Phase
  | finished : Bool → Phase
deriving DecidableEq

/-- Shared state of several concurrent check_limit calls on one triple. -/
structure ConcState where
  tbl : LimitsTable
  phases : List Phase
deriving DecidableEq

/-- One atomic step of caller i: either its SELECT (recording the observed
row) or its decision plus UPDATE/INSERT, acting on the table as it stands at
write time — exactly the two-statement structure of check_limit. -/
def stepCaller (s : Int) (t : String) (L : Int) (d : String)
    (st : ConcState) (i : Nat) : ConcState :=
  match st.phases.get? i with
  | some Phase.toRead =>
    { st with phases := st.phases.set i (Phase.toWrite (selectCount st.tbl s t d)) }
  | some (Phase.toWrite (some c)) =>
    if c ≥ L then { st with phases := st.phases.set i (Phase.finished false) }
    else { tbl := updateIncrement st.tbl s t d
           phases := st.phases.set i (Phase.finished true) }
  | some (Phase.toWrite none) =>
    { tbl := insertRow st.tbl s t d
      phases := st.phases.set i (Phase.finished true) }
  | _ => st

/-- Run a schedule: the listed callers take their next atomic step in order. -/
def runSchedule (s : Int) (t : String) (L : Int) (d : String) :
    ConcState → List Nat → ConcState
  | st, [] => st
  | st, i :: rest => runSchedule s t L d (stepCaller s t L d st i) rest

/-- Python's `needle in hay` substring test. -/
def containsStr (hay needle : String) : Bool :=
  decide (needle.toList <:+: hay.toList)

/-- Python's truthiness-based `a or b` on an optional string: an absent or
empty string falls through to the fallback. -/
def pyStrOr (a : Option String) (b : String) : String :=
  match a with
  | some str => if str.isEmpty then b else str
  | none => b

/-- The fields of an incoming private message that menfess_handler inspects:
text, caption, and presence of a photo or video. -/
structure MenfessMsg where
  text : Option String
  caption : Option String
  photo : Bool
  video : Bool

/-- The user-visible outcome of menfess_handler: the hashtag warning, the
daily-limit refusal, or a forwarded menfess. -/
inductive MenfessOutcome where
  | needTag : MenfessOutcome
  | limitReached : MenfessOutcome
  | sent : MenfessOutcome
deriving DecidableEq

/-- menfess_handler (bot.py 132-170) restricted to its decision logic:
hashtag gate, media/text classification with limits 10/5, and the
check_limit call. -/
def menfess_handler (tbl : LimitsTable) (uid : Int) (m : MenfessMsg)
    (today : String) : MenfessOutcome × LimitsTable :=
  let text := pyStrOr m.text (pyStrOr m.caption "")
  if !(containsStr text "#pria") && !(containsStr text "#wanita") then
    (MenfessOutcome.needTag, tbl)
  else
    let limit_type := if m.photo || m.video then "media" else "text"
    let max_limit : Int := if limit_type == "media" then 10 else 5
    let r := check_limit tbl uid limit_type max_limit today
    if r.1 then (MenfessOutcome.sent, r.2) else (MenfessOutcome.limitReached, r.2)

/-- The user-visible outcome of download_handler up to the quota decision. -/
inductive DownloadOutcome where
  | usage : DownloadOutcome
  | limitReached : DownloadOutcome
  | proceeded : DownloadOutcome
deriving DecidableEq

/-- download_handler (bot.py 176-187) restricted to its decision logic:
argument check, then check_limit with action-type "download" and limit 2. -/
def download_handler (tbl : LimitsTable) (uid : Int) (args : List String)
    (today : String) : DownloadOutcome × LimitsTable :=
  if args.isEmpty then (DownloadOutcome.usage, tbl)
  else
    let r := check_limit tbl uid "download" 2 today
    if r.1 then (DownloadOutcome.proceeded, r.2) else (DownloadOutcome.limitReached, r.2)

/-- Modelled from the spec: the Call Attempt Outcome of §3 — the tagged
result of one remote attempt.  The retrying call executor itself is not among
the source files; only the spec (§4.4) describes it. -/
inductive Outcome (α β : Type) where
  | success : α → Outcome α β
  | retryableFailure : β → Outcome α β
  | fatalFailure : β → Outcome α β

/-- Modelled from the spec: what one run of `execute` produces — the terminal
result (a value or a fatal/terminal failure carrying its cause), the number
of attempts performed, and the number of backoff sleeps performed. -/
structure ExecResult (α β : Type) where
  result : Except β α
  attempts : Nat
  sleeps : Nat

/-- Modelled from the spec: the retry loop of the Retrying Call Executor
(§4.4), with `r` the number of attempts still available after the current
one and `k` the 1-indexed attempt number.  On Success or FatalFailure it
stops at once; on RetryableFailure it sleeps and continues while attempts
remain, and propagates the last cause when they are exhausted. -/
def executeFuel {α β : Type} (attemptFn : Nat → Outcome α β) (k : Nat) :
    Nat → ExecResult α β
  | 0 =>
    match attemptFn k with
    | Outcome.success v => ⟨Except.ok v, 1, 0⟩
    | Outcome.retryableFailure c => ⟨Except.error c, 1, 0⟩
    | Outcome.fatalFailure c => ⟨Except.error c, 1, 0⟩
  | r + 1 =>
    match attemptFn k with
    | Outcome.success v => ⟨Except.ok v, 1, 0⟩
    | Outcome.retryableFailure _ =>
      let res := executeFuel attemptFn (k + 1) r
      ⟨res.result, res.attempts + 1, res.sleeps + 1⟩
    | Outcome.fatalFailure c => ⟨Except.error c, 1, 0⟩

/-- Modelled from the spec: `execute(attemptFn, maxRetries)` (§4.4) drives up
to maxRetries attempts, starting at attempt 1. -/
def execute {α β : Type} (attemptFn : Nat → Outcome α β) (maxRetries : Nat) :
    ExecResult α β :=
  executeFuel attemptFn 1 (maxRetries - 1)

/-! Helper lemmas about the quota gate. -/

lemma rowMatches_iff {s : Int} {t d : String} {r : LimitRow} :
    rowMatches s t d r = true ↔ (r.user_id = s ∧ r.type = t ∧ r.date = d) := by
  simp [rowMatches, Bool.and_eq_true, and_assoc]

lemma rowMatches_bump (s : Int) (t d : String) (r : LimitRow) :
    rowMatches s t d { r with count := r.count + 1 } = rowMatches s t d r := rfl

lemma rowMatches_insert_self (s : Int) (t d : String) :
    rowMatches s t d { user_id := s, type := t, count := 1, date := d } = true := by
  simp [rowMatches]

lemma check_limit_of_none {tbl : LimitsTable} {s : Int} {t d : String} {L : Int}
    (h : selectCount tbl s t d = none) :
    check_limit tbl s t L d = (true, insertRow tbl s t d) := by
  simp [check_limit, h]

lemma check_limit_of_ge {tbl : LimitsTable} {s : Int} {t d : String} {L c : Int}
    (h : selectCount tbl s t d = some c) (hge : L ≤ c) :
    check_limit tbl s t L d = (false, tbl) := by
  simp only [check_limit, h]
  rw [if_pos hge]

lemma check_limit_of_lt {tbl : LimitsTable} {s : Int} {t d : String} {L c : Int}
    (h : selectCount tbl s t d = some c) (hlt : c < L) :
    check_limit tbl s t L d = (true, updateIncrement tbl s t d) := by
  simp only [check_limit, h]
  rw [if_neg (not_le.mpr hlt)]

lemma selectCount_update_self (tbl : LimitsTable) (s : Int) (t d : String) :
    selectCount (updateIncrement tbl s t d) s t d
      = (selectCount tbl s t d).map (fun c => c + 1) := by
  induction tbl with
  | nil => rfl
  | cons r rs ih =>
    cases h : rowMatches s t d r with
    | true =>
      simp [selectCount, updateIncrement, h, rowMatches_bump,
        List.find?_cons_of_pos]
    | false =>
      simpa [selectCount, updateIncrement, h, List.find?_cons_of_neg] using ih

lemma selectCount_update_other {s' s : Int} {t' d' t d : String}
    (hk : ¬(s' = s ∧ t' = t ∧ d' = d)) (tbl : LimitsTable) :
    selectCount (updateIncrement tbl s t d) s' t' d' = selectCount tbl s' t' d' := by
  induction tbl with
  | nil => rfl
  | cons r rs ih =>
    cases h : rowMatches s t d r with
    | true =>
      have h2 : rowMatches s' t' d' r = false := by
        rcases rowMatches_iff.mp h with ⟨e1, e2, e3⟩
        cases h2 : rowMatches s' t' d' r with
        | false => rfl
        | true =>
          rcases rowMatches_iff.mp h2 with ⟨f1, f2, f3⟩
          exact absurd ⟨by rw [← f1, e1], by rw [← f2, e2], by rw [← f3, e3]⟩ hk
      have h2' : rowMatches s' t' d' { r with count := r.count + 1 } = false := h2
      simpa [selectCount, updateIncrement, h, h2, h2',
        List.find?_cons_of_neg] using ih
    | false =>
      cases h2 : rowMatches s' t' d' r with
      | true =>
        simp [selectCount, updateIncrement, h, h2, List.find?_cons_of_pos]
      | false =>
        simpa [selectCount, updateIncrement, h, h2, List.find?_cons_of_neg] using ih

lemma selectCount_insert_self {tbl : LimitsTable} {s : Int} {t d : String}
    (h : selectCount tbl s t d = none) :
    selectCount (insertRow tbl s t d) s t d = some 1 := by
  have hf : tbl.find? (rowMatches s t d) = none := by
    cases hf : tbl.find? (rowMatches s t d) with
    | none => rfl
    | some r => simp [selectCount, hf] at h
  simp [selectCount, insertRow, List.find?_append, hf, rowMatches_insert_self]

lemma selectCount_insert_other {s' s : Int} {t' d' t d : String}
    (hk : ¬(s' = s ∧ t' = t ∧ d' = d)) (tbl : LimitsTable) :
    selectCount (insertRow tbl s t d) s' t' d' = selectCount tbl s' t' d' := by
  have hnew : rowMatches s' t' d' { user_id := s, type := t, count := 1, date := d } = false := by
    cases hm : rowMatches s' t' d' { user_id := s, type := t, count := 1, date := d } with
    | false => rfl
    | true =>
      rcases rowMatches_iff.mp hm with ⟨f1, f2, f3⟩
      exact absurd ⟨f1.symm ▸ rfl, f2.symm ▸ rfl, f3.symm ▸ rfl⟩ hk
  simp [selectCount, insertRow, List.find?_append, hnew]

/-- Frame of one whole check_limit call on a different (subject, type, day)
key: the selected count there is untouched. -/
lemma selectCount_check_limit_other {s' s : Int} {t' d' t d : String} {L : Int}
    (hk : ¬(s' = s ∧ t' = t ∧ d' = d)) (tbl : LimitsTable) :
    selectCount (check_limit tbl s t L d).2 s' t' d' = selectCount tbl s' t' d' := by
  cases hsel : selectCount tbl s t d with
  | none => rw [check_limit_of_none hsel]; exact selectCount_insert_other hk tbl
  | some c =>
    by_cases hge : L ≤ c
    · rw [check_limit_of_ge hsel hge]
    · rw [check_limit_of_lt hsel (not_le.mp hge)]
      exact selectCount_update_other hk tbl

/-! Frame lemmas: rows outside the WHERE clause are untouched. -/

lemma filter_updateIncrement (tbl : LimitsTable) (s : Int) (t d : String) :
    (updateIncrement tbl s t d).filter (fun r => !(rowMatches s t d r))
      = tbl.filter (fun r => !(rowMatches s t d r)) := by
  induction tbl with
  | nil => rfl
  | cons r rs ih =>
    cases h : rowMatches s t d r with
    | true =>
      simpa [updateIncrement, List.filter_cons, h, rowMatches_bump] using ih
    | false =>
      simpa [updateIncrement, List.filter_cons, h] using ih

lemma filter_insertRow (tbl : LimitsTable) (s : Int) (t d : String) :
    (insertRow tbl s t d).filter (fun r => !(rowMatches s t d r))
      = tbl.filter (fun r => !(rowMatches s t d r)) := by
  simp [insertRow, List.filter_append, rowMatches_insert_self]

lemma filter_check_limit (tbl : LimitsTable) (s : Int) (t d : String) (L : Int) :
    (check_limit tbl s t L d).2.filter (fun r => !(rowMatches s t d r))
      = tbl.filter (fun r => !(rowMatches s t d r)) := by
  cases hsel : selectCount tbl s t d with
  | none => rw [check_limit_of_none hsel]; exact filter_insertRow tbl s t d
  | some c =>
    by_cases hge : L ≤ c
    · rw [check_limit_of_ge hsel hge]
    · rw [check_limit_of_lt hsel (not_le.mp hge)]
      exact filter_updateIncrement tbl s t d

/-! Key-uniqueness invariant of the limits table. -/

/-- The (user_id, type, date) key of a row. -/
def keyOf (r : LimitRow) : Int × String × String := (r.user_id, r.type, r.date)

/-- At most one row per (subject, action-type, day) triple: all keys in the
table are pairwise distinct. -/
def NoDupKeys (tbl : LimitsTable) : Prop :=
  List.Pairwise (fun a b => keyOf a ≠ keyOf b) tbl

lemma rowMatches_iff_keyOf {s : Int} {t d : String} {r : LimitRow} :
    rowMatches s t d r = true ↔ keyOf r = (s, t, d) := by
  rw [rowMatches_iff]
  simp [keyOf, Prod.ext_iff]

lemma keyOf_bumpIf (s : Int) (t d : String) (r : LimitRow) :
    keyOf (if rowMatches s t d r then { r with count := r.count + 1 } else r)
      = keyOf r := by
  cases h : rowMatches s t d r <;> simp [keyOf]

lemma noDupKeys_updateIncrement {tbl : LimitsTable} (s : Int) (t d : String)
    (h : NoDupKeys tbl) : NoDupKeys (updateIncrement tbl s t d) := by
  unfold NoDupKeys updateIncrement
  rw [List.pairwise_map]
  refine h.imp_of_mem ?_
  intro a b _ _ hab
  rw [keyOf_bumpIf, keyOf_bumpIf]
  exact hab

lemma noDupKeys_insertRow {tbl : LimitsTable} {s : Int} {t d : String}
    (hsel : selectCount tbl s t d = none) (h : NoDupKeys tbl) :
    NoDupKeys (insertRow tbl s t d) := by
  unfold NoDupKeys insertRow
  rw [List.pairwise_append]
  refine ⟨h, List.pairwise_singleton _ _, ?_⟩
  intro a ha b hb
  have hfa : tbl.find? (rowMatches s t d) = none := by
    cases hf : tbl.find? (rowMatches s t d) with
    | none => rfl
    | some r => simp [selectCount, hf] at hsel
  have hnm : rowMatches s t d a = false := by
    have := List.find?_eq_none.mp hfa a ha
    cases hm : rowMatches s t d a with
    | false => rfl
    | true => exact absurd hm this
  have hb' : b = { user_id := s, type := t, count := 1, date := d } := by
    simpa using hb
  rw [hb']
  intro hkey
  have : rowMatches s t d a = true := rowMatches_iff_keyOf.mpr (by simpa [keyOf] using hkey)
  rw [hnm] at this
  exact Bool.false_ne_true this

/-! Lemmas about sequences of calls. -/

lemma runCalls_allowed_then_denied (s : Int) (t d : String) (L : Int) :
    ∀ (n : Nat) (tbl : LimitsTable) (c : Int),
      selectCount tbl s t d = some c → c + n = L →
      (runCalls s t L d tbl (n + 1)).1 = List.replicate n true ++ [false] ∧
      selectCount (runCalls s t L d tbl (n + 1)).2 s t d = some L := by
  intro n
  induction n with
  | zero =>
    intro tbl c hsel hc
    have hc' : c = L := by push_cast at hc; omega
    subst hc'
    rw [runCalls]
    rw [check_limit_of_ge hsel le_rfl]
    simp [runCalls, hsel]
  | succ n ih =>
    intro tbl c hsel hc
    have hlt : c < L := by push_cast at hc ⊢; omega
    rw [runCalls]
    rw [check_limit_of_lt hsel hlt]
    have hsel' : selectCount (updateIncrement tbl s t d) s t d = some (c + 1) := by
      rw [selectCount_update_self, hsel]; rfl
    have hc' : (c + 1) + (n : Int) = L := by push_cast at hc ⊢; omega
    rcases ih (updateIncrement tbl s t d) (c + 1) hsel' hc' with ⟨h1, h2⟩
    refine ⟨?_, h2⟩
    simp only [h1, List.replicate_succ, List.cons_append]

lemma runCalls_other_day (s : Int) (t : String) (L : Int) (d d' : String)
    (hd : d' ≠ d) :
    ∀ (n : Nat) (tbl : LimitsTable),
      selectCount (runCalls s t L d tbl n).2 s t d' = selectCount tbl s t d' := by
  intro n
  induction n with
  | zero => intro tbl; rfl
  | succ n ih =>
    intro tbl
    rw [runCalls]
    rw [ih]
    exact selectCount_check_limit_other (by tauto) tbl

/-! Claim theorems. -/

/-- C1: for every subject, action-type, day and limit, check_limit returns
Denied with no mutation of the stored counters when the stored count for the
triple is already at or above the limit; otherwise it returns Allowed and
increments that count by exactly one, creating the row with count 1 when no
row existed. -/
theorem c1_check_limit_getAndIncrement (tbl : LimitsTable) (s : Int)
    (t d : String) (L : Int) :
    (∀ c, selectCount tbl s t d = some c → L ≤ c →
        check_limit tbl s t L d = (false, tbl)) ∧
    (∀ c, selectCount tbl s t d = some c → c < L →
        (check_limit tbl s t L d).1 = true ∧
        selectCount (check_limit tbl s t L d).2 s t d = some (c + 1)) ∧
    (selectCount tbl s t d = none →
        check_limit tbl s t L d
          = (true, tbl ++ [{ user_id := s, type := t, count := 1, date := d }])) := by
  refine ⟨fun c hsel hge => check_limit_of_ge hsel hge,
    fun c hsel hlt => ?_, fun hsel => check_limit_of_none hsel⟩
  rw [check_limit_of_lt hsel hlt]
  exact ⟨rfl, by rw [selectCount_update_self, hsel]; rfl⟩

/-- Witness for C1: the denial branch at stored count 2 with limit 2 leaves
the table unchanged. -/
theorem c1_witness :
    selectCount [⟨1, "text", 2, "D"⟩] 1 "text" "D" = some 2 ∧
    check_limit [⟨1, "text", 2, "D"⟩] 1 "text" 2 "D" = (false, [⟨1, "text", 2, "D"⟩]) :=
  ⟨by decide, (c1_check_limit_getAndIncrement _ 1 "text" "D" 2).1 2 (by decide) (by decide)⟩

/-- C2 as stated is false at limit L = 0: the claim requires the (L+1)-th,
here the first, same-day call to return Denied, but check_limit allows the
first call (and creates a row with count 1) whenever no row exists, whatever
the limit. -/
theorem c2_counterexample :
    (runCalls 42 "download" 0 "2024-01-01" [] 1).1 = [true] := by decide

/-- One unfolding step of runCalls. -/
lemma runCalls_succ (s : Int) (t : String) (L : Int) (d : String)
    (tbl : LimitsTable) (n : Nat) :
    runCalls s t L d tbl (n + 1)
      = ((check_limit tbl s t L d).1
            :: (runCalls s t L d (check_limit tbl s t L d).2 n).1,
         (runCalls s t L d (check_limit tbl s t L d).2 n).2) := rfl

/-- C2 (amended to limits L ≥ 1): starting a day with no stored row for the
triple, calls 1..L return Allowed, the (L+1)-th returns Denied, the stored
count for the triple ends at L, and a call on a different day with no stored
row is allowed again (the count resets with the day). -/
theorem c2_daily_quota (s : Int) (t d d' : String) (L : Nat) (tbl : LimitsTable)
    (hL : 1 ≤ L) (h0 : selectCount tbl s t d = none)
    (hd : d' ≠ d) (h0' : selectCount tbl s t d' = none) :
    (runCalls s t (L : Int) d tbl (L + 1)).1 = List.replicate L true ++ [false] ∧
    selectCount (runCalls s t (L : Int) d tbl (L + 1)).2 s t d = some (L : Int) ∧
    (check_limit (runCalls s t (L : Int) d tbl (L + 1)).2 s t (L : Int) d').1 = true := by
  obtain ⟨L0, rfl⟩ : ∃ L0, L = L0 + 1 := ⟨L - 1, by omega⟩
  have h1 : check_limit tbl s t ((L0 + 1 : Nat) : Int) d = (true, insertRow tbl s t d) :=
    check_limit_of_none h0
  have h2 : selectCount (insertRow tbl s t d) s t d = some 1 :=
    selectCount_insert_self h0
  have h3 := runCalls_allowed_then_denied s t d ((L0 + 1 : Nat) : Int) L0
    (insertRow tbl s t d) 1 h2 (by push_cast; omega)
  have hnext : selectCount (runCalls s t ((L0 + 1 : Nat) : Int) d tbl (L0 + 1 + 1)).2 s t d'
      = none := by
    rw [runCalls_other_day s t _ d d' hd]
    exact h0'
  refine ⟨?_, ?_, ?_⟩
  · rw [runCalls_succ, h1]
    show true :: (runCalls s t ((L0 + 1 : Nat) : Int) d (insertRow tbl s t d) (L0 + 1)).1
        = List.replicate (L0 + 1) true ++ [false]
    rw [h3.1]
    simp [List.replicate_succ]
  · rw [runCalls_succ, h1]
    show selectCount (runCalls s t ((L0 + 1 : Nat) : Int) d (insertRow tbl s t d) (L0 + 1)).2 s t d
        = some ((L0 + 1 : Nat) : Int)
    exact h3.2
  · rw [check_limit_of_none hnext]

/-- Witness for C2 (amended), at the end-to-end scenario of the claim:
subject 42, action-type "download", limit 2, three same-day calls from an
empty table give [Allowed, Allowed, Denied] and a stored count of 2. -/
theorem c2_witness :
    (runCalls 42 "download" 2 "2024-01-01" [] 3).1 = [true, true, false] ∧
    selectCount (runCalls 42 "download" 2 "2024-01-01" [] 3).2 42 "download" "2024-01-01"
      = some 2 := by
  have h := c2_daily_quota 42 "download" "2024-01-01" "2024-01-02" 2 []
    (by decide) (by decide) (by decide) (by decide)
  exact ⟨by simpa using h.1, by simpa using h.2.1⟩

/-- C3 (code_bug): check_limit is a SELECT followed by a separate conditional
UPDATE/INSERT with no transaction or lock, on a connection opened with
check_same_thread disabled, so two concurrent calls can both pass the read
before either writes.  First conjunct: two concurrent callers, limit 1, empty
table, schedule read-read-write-write — both are Allowed (the claim requires
exactly 1 Allowed and 1 Denied) and two duplicate rows are inserted.  Second
conjunct: limit 2 with a stored count of 1 — both callers are admitted and
the stored count reaches 3 > 2, which the claim forbids. -/
theorem c3_race_over_admission :
    ((runSchedule 7 "x" 1 "d" ⟨[], [Phase.toRead, Phase.toRead]⟩ [0, 1, 0, 1]).phases
        = [Phase.finished true, Phase.finished true] ∧
      (runSchedule 7 "x" 1 "d" ⟨[], [Phase.toRead, Phase.toRead]⟩ [0, 1, 0, 1]).tbl
        = [⟨7, "x", 1, "d"⟩, ⟨7, "x", 1, "d"⟩]) ∧
    (runSchedule 7 "x" 2 "d" ⟨[⟨7, "x", 1, "d"⟩], [Phase.toRead, Phase.toRead]⟩ [0, 1, 0, 1]).tbl
        = [⟨7, "x", 3, "d"⟩] := by
  refine ⟨⟨?_, ?_⟩, ?_⟩ <;> decide

/-- C4: one check_limit call preserves the at-most-one-row-per-triple
invariant, and the count selected for any triple never decreases. -/
theorem c4_invariant_preserved (tbl : LimitsTable) (s : Int) (t d : String)
    (L : Int) (h : NoDupKeys tbl) :
    NoDupKeys (check_limit tbl s t L d).2 ∧
    (∀ (s' : Int) (t' d' : String) (c : Int), selectCount tbl s' t' d' = some c →
      ∃ c', selectCount (check_limit tbl s t L d).2 s' t' d' = some c' ∧ c ≤ c') := by
  constructor
  · cases hsel : selectCount tbl s t d with
    | none => rw [check_limit_of_none hsel]; exact noDupKeys_insertRow hsel h
    | some c =>
      by_cases hge : L ≤ c
      · rw [check_limit_of_ge hsel hge]; exact h
      · rw [check_limit_of_lt hsel (not_le.mp hge)]
        exact noDupKeys_updateIncrement s t d h
  · intro s' t' d' c hsel'
    by_cases hk : s' = s ∧ t' = t ∧ d' = d
    · rcases hk with ⟨rfl, rfl, rfl⟩
      by_cases hge : L ≤ c
      · rw [check_limit_of_ge hsel' hge]
        exact ⟨c, hsel', le_rfl⟩
      · rw [check_limit_of_lt hsel' (not_le.mp hge)]
        refine ⟨c + 1, ?_, by omega⟩
        rw [selectCount_update_self, hsel']
        rfl
    · rw [selectCount_check_limit_other hk]
      exact ⟨c, hsel', le_rfl⟩

/-- Witness for C4 at a concrete one-row table. -/
theorem c4_witness :
    NoDupKeys ([⟨3, "text", 1, "D"⟩] : LimitsTable) ∧
    NoDupKeys (check_limit [⟨3, "text", 1, "D"⟩] 3 "text" 5 "D").2 :=
  ⟨List.pairwise_singleton _ _,
   (c4_invariant_preserved _ 3 "text" "D" 5 (List.pairwise_singleton _ _)).1⟩

/-- C5: the one-time welcome marker is idempotent under sequential use — on
an unmarked subject the operation reports "first", inserts the row and (as
that is exactly when the reply fires) fires the side effect; repeating the
operation reports "already marked", leaves the table unchanged and fires no
further side effect. -/
theorem c5_mark_once_idempotent (w : List Int) (uid : Int) :
    (w.find? (fun x => x == uid) = none →
        markOnceIfAbsent w uid = (true, w ++ [uid])) ∧
    (markOnceIfAbsent (markOnceIfAbsent w uid).2 uid).1 = false ∧
    (markOnceIfAbsent (markOnceIfAbsent w uid).2 uid).2 = (markOnceIfAbsent w uid).2 := by
  cases hf : w.find? (fun x => x == uid) with
  | some x =>
    have h1 : markOnceIfAbsent w uid = (false, w) := by simp [markOnceIfAbsent, hf]
    refine ⟨fun hnone => ?_, ?_, ?_⟩
    · cases hnone
    · simp [h1]
    · simp [h1]
  | none =>
    have h1 : markOnceIfAbsent w uid = (true, w ++ [uid]) := by
      simp [markOnceIfAbsent, hf]
    have hf2 : (w ++ [uid]).find? (fun x => x == uid) = some uid := by
      rw [List.find?_append, hf]
      simp
    have h4 : markOnceIfAbsent (w ++ [uid]) uid = (false, w ++ [uid]) := by
      simp [markOnceIfAbsent, hf2]
    refine ⟨fun _ => h1, ?_, ?_⟩
    · simp [h1, h4]
    · simp [h1, h4]

/-- Witness for C5: a fresh marker table. -/
theorem c5_witness :
    ([] : List Int).find? (fun x => x == 5) = none ∧
    markOnceIfAbsent [] 5 = (true, [5]) :=
  ⟨rfl, (c5_mark_once_idempotent [] 5).1 rfl⟩

/-- When every attempt is a retryable failure, the retry loop consumes all
its fuel, one sleep per continuation, and ends with the last cause. -/
lemma executeFuel_all_retryable {α β : Type} (attemptFn : Nat → Outcome α β)
    (cause : Nat → β) (h : ∀ k, attemptFn k = Outcome.retryableFailure (cause k)) :
    ∀ (r k : Nat), executeFuel attemptFn k r
      = ⟨Except.error (cause (k + r)), r + 1, r⟩ := by
  intro r
  induction r with
  | zero =>
    intro k
    simp [executeFuel, h k]
  | succ r ih =>
    intro k
    have hk : k + 1 + r = k + (r + 1) := by omega
    simp [executeFuel, h k, ih (k + 1), hk]

/-- C6: with maxRetries = 3 and every attempt returning RetryableFailure, the
executor performs exactly 3 attempts and exactly 2 backoff sleeps and returns
a terminal failure carrying the cause of the last (third) attempt. -/
theorem c6_retry_exhaustion {α β : Type} (attemptFn : Nat → Outcome α β)
    (cause : Nat → β)
    (h : ∀ k, attemptFn k = Outcome.retryableFailure (cause k)) :
    execute attemptFn 3 = ⟨Except.error (cause 3), 3, 2⟩ := by
  have h2 := executeFuel_all_retryable attemptFn cause h 2 1
  simpa [execute] using h2

/-- Witness for C6 with a concrete always-retryable attempt function. -/
theorem c6_witness :
    execute (fun k => (Outcome.retryableFailure k : Outcome Unit Nat)) 3
      = ⟨Except.error 3, 3, 2⟩ :=
  c6_retry_exhaustion _ (fun k => k) (fun _ => rfl)

/-- C7: a FatalFailure on the first attempt propagates immediately — one
attempt, zero backoff sleeps, no retry — whatever maxRetries is. -/
theorem c7_fatal_short_circuit {α β : Type} (attemptFn : Nat → Outcome α β)
    (c : β) (maxRetries : Nat) (h : attemptFn 1 = Outcome.fatalFailure c) :
    execute attemptFn maxRetries = ⟨Except.error c, 1, 0⟩ := by
  cases hr : maxRetries - 1 with
  | zero => simp [execute, hr, executeFuel, h]
  | succ r => simp [execute, hr, executeFuel, h]

/-- Witness for C7 with a concrete fatal attempt function. -/
theorem c7_witness :
    execute (fun _ => (Outcome.fatalFailure true : Outcome Nat Bool)) 5
      = ⟨Except.error true, 1, 0⟩ :=
  c7_fatal_short_circuit _ true 5 rfl

/-- C8: one check_limit call touches nothing outside the limits rows matching
its (subject, actionType, today) key — the welcome and chat_stats tables are
unchanged and every limits row outside the key survives exactly as it was,
whether the call allows or denies. -/
theorem c8_frame (db : DB) (s : Int) (t d : String) (L : Int) :
    (check_limit_db db s t L d).2.welcome = db.welcome ∧
    (check_limit_db db s t L d).2.chat_stats = db.chat_stats ∧
    (check_limit_db db s t L d).2.limits.filter (fun r => !(rowMatches s t d r))
      = db.limits.filter (fun r => !(rowMatches s t d r)) :=
  ⟨rfl, rfl, filter_check_limit db.limits s t d L⟩

/-- C9: with a non-positive limit and no stored row yet, check_limit still
returns Allowed and creates the row with count 1; denial only ever happens
when a row exists whose count is at or above the limit. -/
theorem c9_nonpositive_limit (tbl : LimitsTable) (s : Int) (t d : String)
    (L : Int) :
    (L ≤ 0 → selectCount tbl s t d = none →
        check_limit tbl s t L d = (true, insertRow tbl s t d)) ∧
    ((check_limit tbl s t L d).1 = false →
        ∃ c, selectCount tbl s t d = some c ∧ L ≤ c) := by
  constructor
  · intro _ h
    exact check_limit_of_none h
  · intro hfalse
    cases hsel : selectCount tbl s t d with
    | none =>
      rw [check_limit_of_none hsel] at hfalse
      simp at hfalse
    | some c =>
      by_cases hge : L ≤ c
      · exact ⟨c, rfl, hge⟩
      · rw [check_limit_of_lt hsel (not_le.mp hge)] at hfalse
        simp at hfalse

/-- Witness for C9: limit 0 on an empty table. -/
theorem c9_witness :
    (0 : Int) ≤ 0 ∧ check_limit [] 5 "a" 0 "d" = (true, insertRow [] 5 "a" "d") :=
  ⟨le_rfl, (c9_nonpositive_limit [] 5 "a" "d" 0).1 le_rfl rfl⟩

/-- C10: when the hashtag gate passes, menfess_handler delegates to
check_limit with action-type "media" and limit 10 exactly when the message
carries a photo or video, and with action-type "text" and limit 5 otherwise;
download_handler with a non-empty argument list delegates to check_limit with
action-type "download" and limit 2. -/
theorem c10_policy_constants (tbl : LimitsTable) (uid : Int) (m : MenfessMsg)
    (today : String) (args : List String)
    (hm : (containsStr (pyStrOr m.text (pyStrOr m.caption "")) "#pria"
        || containsStr (pyStrOr m.text (pyStrOr m.caption "")) "#wanita") = true)
    (ha : args ≠ []) :
    menfess_handler tbl uid m today
      = ((if (check_limit tbl uid (if m.photo || m.video then "media" else "text")
              (if m.photo || m.video then 10 else 5) today).1
          then MenfessOutcome.sent else MenfessOutcome.limitReached),
         (check_limit tbl uid (if m.photo || m.video then "media" else "text")
              (if m.photo || m.video then 10 else 5) today).2) ∧
    download_handler tbl uid args today
      = ((if (check_limit tbl uid "download" 2 today).1
          then DownloadOutcome.proceeded else DownloadOutcome.limitReached),
         (check_limit tbl uid "download" 2 today).2) := by
  constructor
  · have hgate : (!(containsStr (pyStrOr m.text (pyStrOr m.caption "")) "#pria")
        && !(containsStr (pyStrOr m.text (pyStrOr m.caption "")) "#wanita")) = false := by
      cases h1 : containsStr (pyStrOr m.text (pyStrOr m.caption "")) "#pria" <;>
        cases h2 : containsStr (pyStrOr m.text (pyStrOr m.caption "")) "#wanita" <;>
        simp_all
    cases hpv : m.photo || m.video with
    | true =>
      simp [menfess_handler, hgate, hpv]
      split <;> rfl
    | false =>
      simp [menfess_handler, hgate, hpv]
      split <;> rfl
  · cases args with
    | nil => exact absurd rfl ha
    | cons a as =>
      simp [download_handler]
      split <;> rfl

/-- Witness for C10: a concrete text-only message carrying #pria, and /dl
with one argument, on an empty table. -/
theorem c10_witness :
    menfess_handler [] 1 ⟨some "hello #pria", none, false, false⟩ "d"
      = (MenfessOutcome.sent, [⟨1, "text", 1, "d"⟩]) ∧
    download_handler [] 1 ["u"] "d"
      = (DownloadOutcome.proceeded, [⟨1, "download", 1, "d"⟩]) := by
  have h := c10_policy_constants [] 1 ⟨some "hello #pria", none, false, false⟩ "d" ["u"]
    (by decide) (by decide)
  rw [h.1, h.2]
  constructor <;> decide
